import Mathlib

/-!
Shallow embedding of the signal pipeline of `src/app.py` (a Streamlit stock
dashboard).  Numeric values are modelled over `ℚ`; a pandas `NaN` (or any
value undefined at a given position) is modelled as `none : Option ℚ`.

Mapping to the source:
* `calculate_ema values days`  — `calculate_ema(values, days)` =
  `values.ewm(span=days, adjust=False).mean()` (pandas semantics:
  `adjust=False`, `ignore_na=False`, `min_periods` effectively 1).
* `RawRecord`                  — one row of the table `stock_<code>`:
  columns 날짜 (date), 종가 (closePrice), 시가총액 (marketCap),
  기관 순매수 5일 합계 (instNetBuy5d), 외인 순매수 5일 합계 (foreignNetBuy5d).
  The two 5-day-sum columns and the market cap are stored in the database
  and may be NULL/NaN, hence `Option ℚ`.
* `load_from_db db code`       — `SELECT * FROM stock_<code> ORDER BY 날짜 DESC
  LIMIT 77` followed by `df.sort_index()`.  Dates are the primary key of the
  table, so "sort descending, take the first 77, sort ascending" equals
  "sort ascending, keep the last 77", which is how it is written here.
  The database itself is modelled as a partial map from table names to row
  lists; a missing table (`pd.io.sql.DatabaseError`) is `none` and makes
  `load_from_db` return the empty frame.
* `process_data db code`       — `process_data(stock_code)`; the Python
  function returns `None` when the loaded frame is empty, modelled by
  `Option`.  Column 시기외 is `sigi`, 시기외12/시기외26 are `emaFast`/`emaSlow`,
  MACD is `macd`, 시그널 is `macdSignal`, MACD 오실레이터 is `oscillator`.
* `calculate_stats data`       — `calculate_stats(data)`; pandas
  `Series.quantile` (linear interpolation, NaNs dropped) and `Series.mean`
  (skipna) over the MACD-oscillator column.
-/

/-- One raw row of the per-stock table, as read by `pd.read_sql`. -/
structure RawRecord where
  date : ℕ
  closePrice : ℚ
  marketCap : Option ℚ
  instNetBuy5d : Option ℚ
  foreignNetBuy5d : Option ℚ
deriving DecidableEq

/-- A row of the frame returned by `process_data`, with the derived columns. -/
structure DerivedRecord where
  raw : RawRecord
  sigi : Option ℚ
  emaFast : Option ℚ
  emaSlow : Option ℚ
  macd : Option ℚ
  macdSignal : Option ℚ
  oscillator : Option ℚ
deriving DecidableEq

/-- Subtraction of two possibly-undefined values; any undefined operand makes
the result undefined (pandas NaN propagation through `-`). -/
def osub : Option ℚ → Option ℚ → Option ℚ
  | some x, some y => some (x - y)
  | _, _ => none

/-- Column 시기외 of line 45: `(기관 순매수 5일 합계 + 외인 순매수 5일 합계) / 시가총액 * 100`.
A NULL operand gives NaN; division of a float by zero gives an infinity or
NaN, i.e. no defined finite value, modelled as `none`.  A nonzero (also
negative) market cap gives the exact quotient. -/
def sigiOf (r : RawRecord) : Option ℚ :=
  match r.instNetBuy5d, r.foreignNetBuy5d, r.marketCap with
  | some i, some f, some mc => if mc = 0 then none else some ((i + f) / mc * 100)
  | _, _, _ => none

/-- The running state of pandas `ewm(..., adjust=False).mean()` after the seed:
first argument the current weighted average, second the accumulated old
weight.  On a NaN input the previous average is emitted and the old weight
keeps decaying (`ignore_na=False`); on a defined input the average is
updated and the old weight resets to 1. -/
def ewmGo (a : ℚ) : ℚ → ℚ → List (Option ℚ) → List (Option ℚ)
  | _, _, [] => []
  | w, oldWt, none :: rest => some w :: ewmGo a w (oldWt * (1 - a)) rest
  | w, oldWt, some c :: rest =>
    let w2 := (oldWt * (1 - a) * w + a * c) / (oldWt * (1 - a) + a)
    some w2 :: ewmGo a w2 1 rest

/-- Leading phase of the exponentially weighted mean: NaN outputs until the
first defined value, which seeds the average. -/
def ewmSeed (a : ℚ) : List (Option ℚ) → List (Option ℚ)
  | [] => []
  | none :: rest => none :: ewmSeed a rest
  | some c :: rest => some c :: ewmGo a c 1 rest

/-- Line 17-19: `calculate_ema(values, days)` =
`values.ewm(span=days, adjust=False).mean()` with smoothing factor
`a = 2 / (days + 1)`. -/
def calculate_ema (values : List (Option ℚ)) (days : ℕ) : List (Option ℚ) :=
  ewmSeed (2 / ((days : ℚ) + 1)) values

/-- Ascending order on the date index. -/
def dateLE (a b : RawRecord) : Prop := a.date ≤ b.date

instance : DecidableRel dateLE := fun a b => Nat.decLe a.date b.date

instance : IsTotal RawRecord dateLE := ⟨fun a b => Nat.le_total a.date b.date⟩

instance : IsTrans RawRecord dateLE := ⟨fun _ _ _ h h' => Nat.le_trans h h'⟩

/-- Lines 22-35: fetch the table `stock_<code>`; on a missing table return an
empty frame; otherwise the newest 77 rows by date, in ascending date order. -/
def load_from_db (db : String → Option (List RawRecord)) (stock_code : String) :
    List RawRecord :=
  match db ("stock_" ++ stock_code) with
  | none => []
  | some rows =>
    let sorted := List.insertionSort dateLE rows
    sorted.drop (sorted.length - 77)

/-- Column 시기외 (line 45) of the whole frame. -/
def sigiCol (rows : List RawRecord) : List (Option ℚ) := rows.map sigiOf

/-- Column 시기외12 (line 46). -/
def fastCol (rows : List RawRecord) : List (Option ℚ) := calculate_ema (sigiCol rows) 12

/-- Column 시기외26 (line 47). -/
def slowCol (rows : List RawRecord) : List (Option ℚ) := calculate_ema (sigiCol rows) 26

/-- Column MACD (line 50). -/
def macdCol (rows : List RawRecord) : List (Option ℚ) :=
  List.zipWith osub (fastCol rows) (slowCol rows)

/-- Column 시그널 (line 51). -/
def signalCol (rows : List RawRecord) : List (Option ℚ) :=
  calculate_ema (macdCol rows) 9

/-- Column MACD 오실레이터 (line 52). -/
def oscCol (rows : List RawRecord) : List (Option ℚ) :=
  List.zipWith osub (macdCol rows) (signalCol rows)

/-- Placeholder row used only as the (never reached) `getD` default. -/
def defaultRaw : RawRecord := ⟨0, 0, none, none, none⟩

/-- The derived row at position `i` of the processed frame. -/
def mkDerived (rows : List RawRecord) (i : ℕ) : DerivedRecord :=
  { raw := rows.getD i defaultRaw
    sigi := (sigiCol rows).getD i none
    emaFast := (fastCol rows).getD i none
    emaSlow := (slowCol rows).getD i none
    macd := (macdCol rows).getD i none
    macdSignal := (signalCol rows).getD i none
    oscillator := (oscCol rows).getD i none }

/-- Lines 44-52 of `process_data`: annotate every loaded row with the derived
columns.  No row is ever removed or reordered. -/
def process_data_core (rows : List RawRecord) : List DerivedRecord :=
  (List.range rows.length).map (mkDerived rows)

/-- Lines 38-53: `process_data(stock_code)`; `None` when the loaded frame is
empty, otherwise the frame with the derived columns. -/
def process_data (db : String → Option (List RawRecord)) (stock_code : String) :
    Option (List DerivedRecord) :=
  let data := load_from_db db stock_code
  if data = [] then none else some (process_data_core data)

/-- pandas `Series.quantile(q)` with the default linear interpolation, NaNs
already removed from the input: position `q * (n - 1)` over the `n` sorted
values, interpolating between the neighbouring order statistics. -/
def quantile (xs : List ℚ) (q : ℚ) : Option ℚ :=
  if xs = [] then none
  else
    let sorted := List.insertionSort (· ≤ ·) xs
    let pos := q * ((sorted.length : ℚ) - 1)
    let i := (⌊pos⌋).toNat
    let g := pos - (i : ℚ)
    let lo := sorted.getD i 0
    let hi := sorted.getD (i + 1) lo
    some (lo + g * (hi - lo))

/-- pandas `Series.mean()` over the defined values (`skipna`); NaN on an empty
series. -/
def seriesMean (xs : List ℚ) : Option ℚ :=
  if xs = [] then none else some (xs.sum / (xs.length : ℚ))

/-- The five statistics of `calculate_stats` (lines 56-65), in source order:
상위 10%, 상위 25%, 평균, 하위 25%, 하위 10%. -/
structure Stats where
  top10 : Option ℚ
  top25 : Option ℚ
  avg : Option ℚ
  bot25 : Option ℚ
  bot10 : Option ℚ
deriving DecidableEq

/-- The defined values of the MACD-oscillator column (pandas drops NaNs inside
both `quantile` and `mean`). -/
def oscValues (data : List DerivedRecord) : List ℚ :=
  data.filterMap DerivedRecord.oscillator

/-- Lines 56-65: `calculate_stats(data)`. -/
def calculate_stats (data : List DerivedRecord) : Stats :=
  { top10 := quantile (oscValues data) (9 / 10)
    top25 := quantile (oscValues data) (3 / 4)
    avg := seriesMean (oscValues data)
    bot25 := quantile (oscValues data) (1 / 4)
    bot10 := quantile (oscValues data) (1 / 10) }

/-- Modelled from the spec: `computeRollingSums(records, window=5)` on one
numeric column.  The trailing 5-day sums are not computed anywhere in
`src/app.py` — the database supplies the columns 기관 순매수 5일 합계 and
외인 순매수 5일 합계 precomputed — so this follows the spec's words: the first
`window - 1` positions are undefined, position `i ≥ window - 1` carries the
sum of the `window` values ending at `i`. -/
def computeRollingSums (vals : List ℚ) (window : ℕ := 5) : List (Option ℚ) :=
  (List.range vals.length).map fun i =>
    if window ≤ i + 1 then some (((vals.drop (i + 1 - window)).take window).sum) else none

example : calculate_ema [none, none, some 5, some 10, some 15] 2 =
    [none, none, some 5, some (25/3), some (115/9)] := by norm_num [calculate_ema, ewmSeed, ewmGo]

example : sigiOf ⟨0, 0, some 1000000, some 100, some 50⟩ = some (3/200) := by norm_num [sigiOf]

/-! ### Basic structural lemmas -/

theorem ewmGo_length (a : ℚ) :
    ∀ (l : List (Option ℚ)) (w oldWt : ℚ), (ewmGo a w oldWt l).length = l.length
  | [], _, _ => rfl
  | none :: rest, w, oldWt => by
    simp only [ewmGo, List.length_cons, ewmGo_length a rest]
  | some c :: rest, w, oldWt => by
    simp only [ewmGo, List.length_cons, ewmGo_length a rest]

theorem ewmSeed_length (a : ℚ) :
    ∀ l : List (Option ℚ), (ewmSeed a l).length = l.length
  | [] => rfl
  | none :: rest => by simp only [ewmSeed, List.length_cons, ewmSeed_length a rest]
  | some c :: rest => by simp only [ewmSeed, List.length_cons, ewmGo_length]

theorem calculate_ema_length (values : List (Option ℚ)) (days : ℕ) :
    (calculate_ema values days).length = values.length :=
  ewmSeed_length _ values

theorem sigiCol_length (rows : List RawRecord) : (sigiCol rows).length = rows.length :=
  List.length_map rows sigiOf

theorem fastCol_length (rows : List RawRecord) : (fastCol rows).length = rows.length := by
  rw [fastCol, calculate_ema_length, sigiCol_length]

theorem slowCol_length (rows : List RawRecord) : (slowCol rows).length = rows.length := by
  rw [slowCol, calculate_ema_length, sigiCol_length]

theorem macdCol_length (rows : List RawRecord) : (macdCol rows).length = rows.length := by
  rw [macdCol, List.length_zipWith, fastCol_length, slowCol_length, Nat.min_self]

theorem signalCol_length (rows : List RawRecord) : (signalCol rows).length = rows.length := by
  rw [signalCol, calculate_ema_length, macdCol_length]

theorem oscCol_length (rows : List RawRecord) : (oscCol rows).length = rows.length := by
  rw [oscCol, List.length_zipWith, macdCol_length, signalCol_length, Nat.min_self]

theorem range_map_getD {α : Type} (l : List α) (d : α) :
    (List.range l.length).map (fun i => l.getD i d) = l := by
  induction l with
  | nil => rfl
  | cons x t ih =>
    rw [List.length_cons, List.range_succ_eq_map, List.map_cons, List.map_map]
    have h2 : ((fun i => (x :: t).getD i d) ∘ Nat.succ) = fun i => t.getD i d := by
      funext i
      simp [List.getD_cons_succ]
    rw [h2, ih]
    simp [List.getD_cons_zero]

theorem range_map_getD' {α : Type} (n : ℕ) (l : List α) (d : α) (h : l.length = n) :
    (List.range n).map (fun i => l.getD i d) = l := by
  subst h
  exact range_map_getD l d

theorem core_map_proj {β : Type} (rows : List RawRecord) (f : DerivedRecord → β)
    (col : List β) (d : β) (hc : ∀ i, f (mkDerived rows i) = col.getD i d)
    (hl : col.length = rows.length) :
    (process_data_core rows).map f = col := by
  rw [process_data_core, List.map_map]
  have h2 : (f ∘ mkDerived rows) = fun i => col.getD i d := by
    funext i
    exact hc i
  rw [h2]
  exact range_map_getD' rows.length col d hl

theorem core_map_raw (rows : List RawRecord) :
    (process_data_core rows).map DerivedRecord.raw = rows :=
  core_map_proj rows _ rows defaultRaw (fun _ => rfl) rfl

theorem core_map_sigi (rows : List RawRecord) :
    (process_data_core rows).map DerivedRecord.sigi = sigiCol rows :=
  core_map_proj rows _ _ none (fun _ => rfl) (sigiCol_length rows)

theorem core_map_fast (rows : List RawRecord) :
    (process_data_core rows).map DerivedRecord.emaFast = fastCol rows :=
  core_map_proj rows _ _ none (fun _ => rfl) (fastCol_length rows)

theorem core_map_slow (rows : List RawRecord) :
    (process_data_core rows).map DerivedRecord.emaSlow = slowCol rows :=
  core_map_proj rows _ _ none (fun _ => rfl) (slowCol_length rows)

theorem core_map_macd (rows : List RawRecord) :
    (process_data_core rows).map DerivedRecord.macd = macdCol rows :=
  core_map_proj rows _ _ none (fun _ => rfl) (macdCol_length rows)

theorem core_map_signal (rows : List RawRecord) :
    (process_data_core rows).map DerivedRecord.macdSignal = signalCol rows :=
  core_map_proj rows _ _ none (fun _ => rfl) (signalCol_length rows)

theorem core_map_osc (rows : List RawRecord) :
    (process_data_core rows).map DerivedRecord.oscillator = oscCol rows :=
  core_map_proj rows _ _ none (fun _ => rfl) (oscCol_length rows)

theorem core_length (rows : List RawRecord) :
    (process_data_core rows).length = rows.length := by
  rw [process_data_core, List.length_map, List.length_range]

/-! ### The spec's EMA recurrence, for comparison with `calculate_ema` -/

/-- The spec's recurrence after the seed: `ema_t = a*v_t + (1-a)*ema_(t-1)`.
This definition follows the spec's words, not the source, and is only used to
compare the two. -/
def specEmaFrom (a : ℚ) : ℚ → List ℚ → List ℚ
  | _, [] => []
  | prev, c :: rest => (a * c + (1 - a) * prev) :: specEmaFrom a (a * c + (1 - a) * prev) rest

/-- The spec's EMA of a fully defined series: the first value seeds the
average, then the recurrence runs.  Follows the spec's words. -/
def specEma (a : ℚ) : List ℚ → List ℚ
  | [] => []
  | c :: rest => c :: specEmaFrom a c rest

theorem specEmaFrom_length (a : ℚ) :
    ∀ (vs : List ℚ) (prev : ℚ), (specEmaFrom a prev vs).length = vs.length
  | [], _ => rfl
  | c :: rest, prev => by
    simp only [specEmaFrom, List.length_cons, specEmaFrom_length a rest]

theorem specEma_length (a : ℚ) (vs : List ℚ) : (specEma a vs).length = vs.length := by
  cases vs with
  | nil => rfl
  | cons c rest => simp only [specEma, List.length_cons, specEmaFrom_length]

theorem ewmGo_map_some (a : ℚ) :
    ∀ (vs : List ℚ) (w : ℚ), ewmGo a w 1 (vs.map some) = (specEmaFrom a w vs).map some := by
  intro vs
  induction vs with
  | nil => intro w; rfl
  | cons c rest ih =>
    intro w
    have hw : (1 * (1 - a) * w + a * c) / (1 * (1 - a) + a) = a * c + (1 - a) * w := by
      have hd : 1 * (1 - a) + a = 1 := by ring
      rw [hd, div_one]
      ring
    simp only [List.map_cons, ewmGo, hw, ih, specEmaFrom]

theorem ewmSeed_map_some (a : ℚ) (vs : List ℚ) :
    ewmSeed a (vs.map some) = (specEma a vs).map some := by
  cases vs with
  | nil => rfl
  | cons c rest => simp only [List.map_cons, ewmSeed, specEma, ewmGo_map_some]

theorem ewmSeed_replicate_none (a : ℚ) (k : ℕ) (l : List (Option ℚ)) :
    ewmSeed a (List.replicate k none ++ l) = List.replicate k none ++ ewmSeed a l := by
  induction k with
  | zero => rfl
  | succ n ih => simp only [List.replicate_succ, List.cons_append, List.append_eq, ewmSeed, ih]

theorem calculate_ema_split (days k : ℕ) (vs : List ℚ) :
    calculate_ema (List.replicate k none ++ vs.map some) days =
      List.replicate k none ++ (specEma (2 / ((days : ℚ) + 1)) vs).map some := by
  rw [calculate_ema, ewmSeed_replicate_none, ewmSeed_map_some]

/-! ### Claim theorems -/

/-- Claim C1: on any record sequence, `process_data` computes the 시기외12
column as the 12-period EMA of the 시기외 (signal-ratio) column, the 시기외26
column as its 26-period EMA, MACD as their pointwise difference, 시그널 as
the 9-period EMA of MACD, and the MACD oscillator as the pointwise
difference of MACD and 시그널 (src/app.py lines 46-52). -/
theorem macd_pipeline_columns (rows : List RawRecord) :
    (process_data_core rows).map DerivedRecord.sigi = rows.map sigiOf ∧
    (process_data_core rows).map DerivedRecord.emaFast = calculate_ema (rows.map sigiOf) 12 ∧
    (process_data_core rows).map DerivedRecord.emaSlow = calculate_ema (rows.map sigiOf) 26 ∧
    (process_data_core rows).map DerivedRecord.macd =
      List.zipWith osub ((process_data_core rows).map DerivedRecord.emaFast)
        ((process_data_core rows).map DerivedRecord.emaSlow) ∧
    (process_data_core rows).map DerivedRecord.macdSignal =
      calculate_ema ((process_data_core rows).map DerivedRecord.macd) 9 ∧
    (process_data_core rows).map DerivedRecord.oscillator =
      List.zipWith osub ((process_data_core rows).map DerivedRecord.macd)
        ((process_data_core rows).map DerivedRecord.macdSignal) := by
  refine ⟨core_map_sigi rows, core_map_fast rows, core_map_slow rows, ?_, ?_, ?_⟩
  · rw [core_map_macd, core_map_fast, core_map_slow]
    rfl
  · rw [core_map_signal, core_map_macd]
    rfl
  · rw [core_map_osc, core_map_macd, core_map_signal]
    rfl

/-- Claim C2, counterexample to the claimed example: for the input
`[NaN, NaN, 5, 10, 15]` with span 2 (`a = 2/3`) the code's EMA has `25/3`,
not `10`, at index 3 — the spec's example values are wrong. -/
theorem ema_seed_example_cx :
    (calculate_ema [none, none, some 5, some 10, some 15] 2).getD 3 none = some (25 / 3) ∧
    (25 / 3 : ℚ) ≠ 10 := by
  constructor
  · norm_num [calculate_ema, ewmSeed, ewmGo]
  · norm_num

/-- Claim C2 (amended): `calculate_ema` uses smoothing factor
`a = 2/(span+1)`; leading undefined values stay undefined, the first defined
value seeds the average, and each subsequent value `v` gives
`ema = a*v + (1-a)*ema_prev` — and for `[NaN, NaN, 5, 10, 15]` with span 2
the output is `[NaN, NaN, 5, 25/3, 115/9]` (approximately 8.33 and 12.78),
not `[NaN, NaN, 5, 10, 13.33]` as the spec's example says. -/
theorem ema_recurrence :
    (∀ (days k : ℕ) (vs : List ℚ),
      calculate_ema (List.replicate k none ++ vs.map some) days =
        List.replicate k none ++ (specEma (2 / ((days : ℚ) + 1)) vs).map some) ∧
    calculate_ema [none, none, some 5, some 10, some 15] 2 =
      [none, none, some 5, some (25 / 3), some (115 / 9)] := by
  constructor
  · exact calculate_ema_split
  · norm_num [calculate_ema, ewmSeed, ewmGo]

/-- Claim C3: for every record whose 5-day sums and market cap are defined
and whose market cap is nonzero, the 시기외 (signalRatio) column is
`(instNetBuy5d + foreignNetBuy5d) / marketCap * 100` (src/app.py line 45). -/
theorem signal_ratio_formula (r : RawRecord) (i f mc : ℚ)
    (hi : r.instNetBuy5d = some i) (hf : r.foreignNetBuy5d = some f)
    (hm : r.marketCap = some mc) (h0 : mc ≠ 0) :
    sigiOf r = some ((i + f) / mc * 100) := by
  simp [sigiOf, hi, hf, hm, h0]

/-- Witness for C3, the spec's own numbers: `instNetBuy5d = 100`,
`foreignNetBuy5d = 50`, `marketCap = 1000000` give ratio `0.015 = 3/200`. -/
theorem signal_ratio_formula_w :
    sigiOf ⟨0, 0, some 1000000, some 100, some 50⟩ = some (3 / 200) := by
  rw [signal_ratio_formula ⟨0, 0, some 1000000, some 100, some 50⟩ 100 50 1000000
        rfl rfl rfl (by norm_num)]
  norm_num

/-- Claim C6, counterexample: a retained record with `marketCap = 0` does not
make the pipeline fail — `process_data` returns a normal frame whose 시기외
value for that record is merely undefined.  There is no `InvalidInputError`
anywhere in the code. -/
theorem marketcap_zero_cx :
    process_data (fun _ => some [⟨1, 0, some 0, some 100, some 50⟩]) "005930" =
      some (process_data_core [⟨1, 0, some 0, some 100, some 50⟩]) ∧
    sigiOf ⟨1, 0, some 0, some 100, some 50⟩ = none := by
  constructor
  · rfl
  · simp [sigiOf]

/-- Claim C6 (amended): `process_data` performs no market-cap validation: it
returns `None` exactly when the loaded frame is empty; a record with zero
market cap gets an undefined (infinity/NaN) ratio and stays in the frame; a
record with negative market cap gets the ordinary finite quotient. -/
theorem marketcap_not_validated :
    (∀ (db : String → Option (List RawRecord)) (code : String),
      process_data db code = none ↔ load_from_db db code = []) ∧
    (∀ r : RawRecord, r.marketCap = some 0 → sigiOf r = none) ∧
    (∀ (r : RawRecord) (i f mc : ℚ), r.instNetBuy5d = some i →
      r.foreignNetBuy5d = some f → r.marketCap = some mc → mc < 0 →
      sigiOf r = some ((i + f) / mc * 100)) := by
  refine ⟨?_, ?_, ?_⟩
  · intro db code
    by_cases h : load_from_db db code = [] <;> simp [process_data, h]
  · intro r hm
    cases hi : r.instNetBuy5d <;> cases hf : r.foreignNetBuy5d <;>
      simp [sigiOf, hm, hi, hf]
  · intro r i f mc hi hf hm h0
    simp [sigiOf, hi, hf, hm, ne_of_lt h0]

/-- Witness for C6 (amended) at a concrete zero-cap record. -/
theorem marketcap_not_validated_w :
    sigiOf ⟨3, 0, some 0, some 7, some 8⟩ = none :=
  marketcap_not_validated.2.1 ⟨3, 0, some 0, some 7, some 8⟩ rfl

/-- Claim C7, counterexample: `calculate_stats` on an empty frame does not
fail — it returns a summary whose five statistics are all NaN (undefined),
exactly the "summary of NaNs" the spec forbids. -/
theorem empty_stats_cx :
    calculate_stats [] = ⟨none, none, none, none, none⟩ := rfl

/-- Claim C7 (amended): an empty loaded frame makes `process_data` return the
`None` sentinel (there is no `EmptyResultError`), and `calculate_stats` on an
empty frame returns the all-NaN summary rather than failing. -/
theorem empty_input_behavior :
    (∀ (db : String → Option (List RawRecord)) (code : String),
      load_from_db db code = [] → process_data db code = none) ∧
    calculate_stats [] = ⟨none, none, none, none, none⟩ := by
  constructor
  · intro db code h
    simp [process_data, h]
  · rfl

/-- Witness for C7 (amended): a database with no tables at all. -/
theorem empty_input_behavior_w :
    process_data (fun _ => none) "005930" = none :=
  empty_input_behavior.1 (fun _ => none) "005930" rfl

/-- Claim C9 (amended): no record is ever dropped: whenever `process_data`
returns a frame, its rows are exactly the loaded rows, in order and in
number, whether or not any derived value is undefined. -/
theorem no_rows_dropped (db : String → Option (List RawRecord)) (code : String)
    (out : List DerivedRecord) (h : process_data db code = some out) :
    out.map DerivedRecord.raw = load_from_db db code ∧
    out.length = (load_from_db db code).length := by
  simp only [process_data] at h
  by_cases he : load_from_db db code = []
  · rw [if_pos he] at h
    exact absurd h (by simp)
  · rw [if_neg he] at h
    have ho : out = process_data_core (load_from_db db code) := by
      injection h with h'
      exact h'.symm
    subst ho
    exact ⟨core_map_raw _, core_length _⟩

/-- One-row database used by witnesses. -/
def wdbOne : String → Option (List RawRecord) :=
  fun _ => some [⟨1, 0, some 1000, some 10, some 10⟩]

/-- Witness for C9 (amended) on a one-row database. -/
theorem no_rows_dropped_w :
    (process_data_core (load_from_db wdbOne "1")).map DerivedRecord.raw =
      load_from_db wdbOne "1" ∧
    (process_data_core (load_from_db wdbOne "1")).length =
      (load_from_db wdbOne "1").length :=
  no_rows_dropped wdbOne "1" (process_data_core (load_from_db wdbOne "1")) rfl

/-- Claim C10: a stock code whose table is missing from the database makes
`load_from_db` return an empty frame (the `DatabaseError` handler,
lines 29-32) and `process_data` then returns `None` (lines 41-42). -/
theorem missing_table_gives_none (db : String → Option (List RawRecord))
    (code : String) (h : db ("stock_" ++ code) = none) :
    load_from_db db code = [] ∧ process_data db code = none := by
  have hl : load_from_db db code = [] := by
    simp only [load_from_db, h]
  exact ⟨hl, by simp [process_data, hl]⟩

/-- Witness for C10: the everywhere-empty database. -/
theorem missing_table_gives_none_w :
    load_from_db (fun _ => none) "005930" = [] ∧
    process_data (fun _ => none) "005930" = none :=
  missing_table_gives_none (fun _ => none) "005930" rfl

/-! ### Claim C5: window truncation -/

/-- 77-row table whose first 4 rows have NULL 5-day sums (the warm-up rows as
they would come out of the upstream rolling-sum computation). -/
def c5rows : List RawRecord :=
  ((List.range 4).map fun i => ⟨i, 0, some 1000, none, none⟩) ++
    ((List.range 73).map fun i => ⟨i + 4, 0, some 1000, some 1, some 1⟩)

/-- Database holding `c5rows` under every table name. -/
def c5db : String → Option (List RawRecord) := fun _ => some c5rows

theorem c5rows_sorted : List.Pairwise dateLE c5rows := by
  rw [c5rows, List.pairwise_append]
  refine ⟨?_, ?_, ?_⟩
  · rw [List.pairwise_map]
    exact (List.pairwise_lt_range 4).imp fun h => Nat.le_of_lt h
  · rw [List.pairwise_map]
    exact (List.pairwise_lt_range 73).imp fun h => Nat.add_le_add_right (Nat.le_of_lt h) 4
  · intro x hx y hy
    rw [List.mem_map] at hx hy
    obtain ⟨i, hi, rfl⟩ := hx
    obtain ⟨j, hj, rfl⟩ := hy
    rw [List.mem_range] at hi
    show i ≤ j + 4
    omega

theorem c5rows_length : c5rows.length = 77 := by
  simp [c5rows]

theorem c5_load : load_from_db c5db "005930" = c5rows := by
  have hs : List.insertionSort dateLE c5rows = c5rows :=
    List.Sorted.insertionSort_eq c5rows_sorted
  simp only [load_from_db, c5db, hs, c5rows_length, Nat.sub_self, List.drop_zero]

theorem c5_sigiCol :
    sigiCol c5rows = List.replicate 4 none ++ (List.replicate 73 (1/5 : ℚ)).map some := by
  have hbad : ((List.range 4).map fun i =>
      (⟨i, 0, some 1000, none, none⟩ : RawRecord)).map sigiOf =
      List.replicate 4 (none : Option ℚ) := rfl
  have hgood : ((List.range 73).map fun i =>
      (⟨i + 4, 0, some 1000, some 1, some 1⟩ : RawRecord)).map sigiOf =
      List.replicate 73 (some (1/5 : ℚ)) := by
    rw [List.map_map]
    refine List.eq_replicate_iff.2 ⟨by simp, ?_⟩
    intro b hb
    rw [List.mem_map] at hb
    obtain ⟨i, _, rfl⟩ := hb
    show sigiOf ⟨i + 4, 0, some 1000, some 1, some 1⟩ = some (1/5)
    norm_num [sigiOf]
  rw [sigiCol, c5rows, List.map_append, hbad, hgood, List.map_replicate]

theorem zipWith_osub_replicate_none (k : ℕ) :
    List.zipWith osub (List.replicate k (none : Option ℚ)) (List.replicate k none) =
      List.replicate k none := by
  induction k with
  | zero => rfl
  | succ n ih => simp [List.replicate_succ, ih, osub]

theorem zipWith_osub_split (k : ℕ) (l1 l2 : List ℚ) :
    List.zipWith osub (List.replicate k none ++ l1.map some)
      (List.replicate k none ++ l2.map some) =
      List.replicate k none ++ (List.zipWith Sub.sub l1 l2).map some := by
  rw [List.zipWith_append _ _ _ _ _ (by simp), zipWith_osub_replicate_none]
  congr 1
  rw [List.zipWith_map, List.map_zipWith]
  rfl

theorem c5_oscCol_ex :
    ∃ w : List ℚ, oscCol c5rows = List.replicate 4 none ++ w.map some ∧
      w.length = 73 := by
  have hfast : fastCol c5rows = List.replicate 4 none ++
      (specEma (2 / (((12 : ℕ) : ℚ) + 1)) (List.replicate 73 (1/5 : ℚ))).map some := by
    rw [fastCol, c5_sigiCol]
    exact calculate_ema_split 12 4 (List.replicate 73 (1/5 : ℚ))
  have hslow : slowCol c5rows = List.replicate 4 none ++
      (specEma (2 / (((26 : ℕ) : ℚ) + 1)) (List.replicate 73 (1/5 : ℚ))).map some := by
    rw [slowCol, c5_sigiCol]
    exact calculate_ema_split 26 4 (List.replicate 73 (1/5 : ℚ))
  have hmacd : macdCol c5rows = List.replicate 4 none ++
      (List.zipWith Sub.sub (specEma (2 / (((12 : ℕ) : ℚ) + 1)) (List.replicate 73 (1/5 : ℚ)))
        (specEma (2 / (((26 : ℕ) : ℚ) + 1)) (List.replicate 73 (1/5 : ℚ)))).map some := by
    rw [macdCol, hfast, hslow]
    exact zipWith_osub_split 4 _ _
  have hsignal : signalCol c5rows = List.replicate 4 none ++
      (specEma (2 / (((9 : ℕ) : ℚ) + 1))
        (List.zipWith Sub.sub (specEma (2 / (((12 : ℕ) : ℚ) + 1)) (List.replicate 73 (1/5 : ℚ)))
          (specEma (2 / (((26 : ℕ) : ℚ) + 1)) (List.replicate 73 (1/5 : ℚ))))).map some := by
    rw [signalCol, hmacd]
    exact calculate_ema_split 9 4 _
  refine ⟨List.zipWith Sub.sub
      (List.zipWith Sub.sub (specEma (2 / (((12 : ℕ) : ℚ) + 1)) (List.replicate 73 (1/5 : ℚ)))
        (specEma (2 / (((26 : ℕ) : ℚ) + 1)) (List.replicate 73 (1/5 : ℚ))))
      (specEma (2 / (((9 : ℕ) : ℚ) + 1))
        (List.zipWith Sub.sub (specEma (2 / (((12 : ℕ) : ℚ) + 1)) (List.replicate 73 (1/5 : ℚ)))
          (specEma (2 / (((26 : ℕ) : ℚ) + 1)) (List.replicate 73 (1/5 : ℚ))))), ?_, ?_⟩
  · rw [oscCol, hmacd, hsignal]
    exact zipWith_osub_split 4 _ _
  · simp [specEma_length]

theorem filter_isSome_split (k : ℕ) (w : List ℚ) :
    ((List.replicate k (none : Option ℚ) ++ w.map some).filter
      (fun x => x.isSome)).length = w.length := by
  rw [List.filter_append]
  have h1 : (List.replicate k (none : Option ℚ)).filter (fun x => x.isSome) = [] := by
    induction k with
    | zero => rfl
    | succ n ih => simp [List.replicate_succ, ih]
  have h2 : (w.map some).filter (fun x : Option ℚ => x.isSome) = w.map some := by
    rw [List.filter_eq_self]
    intro a ha
    rw [List.mem_map] at ha
    obtain ⟨b, _, rfl⟩ := ha
    rfl
  rw [h1, h2]
  simp

theorem core_filter_osc (rows : List RawRecord) :
    ((process_data_core rows).filter (fun d => d.oscillator.isSome)).length =
      ((oscCol rows).filter (fun x => x.isSome)).length := by
  rw [← List.countP_eq_length_filter, ← List.countP_eq_length_filter,
    ← core_map_osc rows, List.countP_map]
  rfl

/-- Claim C5, counterexample: `c5rows` is a 77-row table whose first 4 rows
are not fully populated (NULL 5-day sums), so only 73 fully-populated
records exist after warm-up dropping — fewer than 77 — yet the pipeline
returns a 77-row frame (of which only 73 rows carry a defined oscillator),
not the 73 fully-populated records the claim promises: the truncation is
done on raw rows by the SQL query, before any warm-up dropping (and no
record is ever dropped at all). -/
theorem window_truncation_cx :
    (process_data c5db "005930").map List.length = some 77 ∧
    (process_data c5db "005930").map
      (fun l => (l.filter (fun d => d.oscillator.isSome)).length) = some 73 := by
  have hne : c5rows ≠ [] := by
    intro h0
    have := congrArg List.length h0
    rw [c5rows_length] at this
    exact absurd this (by norm_num)
  have hp : process_data c5db "005930" = some (process_data_core c5rows) := by
    simp only [process_data, c5_load, if_neg hne]
  obtain ⟨w, hw, hwl⟩ := c5_oscCol_ex
  rw [hp]
  constructor
  · simp only [Option.map_some']
    rw [core_length, c5rows_length]
  · simp only [Option.map_some']
    rw [core_filter_osc, hw, filter_isSome_split, hwl]

/-- Claim C5 (amended): the truncation to the newest 77 records happens on
the raw rows (in the SQL query), before any derived computation and with no
warm-up dropping at all: whenever the table holds a nonempty row list, the
pipeline keeps `min n 77` rows, sorted ascending by date, a suffix of the
date-sorted table, and returns a derived frame over exactly those rows. -/
theorem window_truncation_amended (db : String → Option (List RawRecord))
    (code : String) (rows : List RawRecord)
    (hdb : db ("stock_" ++ code) = some rows) (hne : rows ≠ []) :
    (load_from_db db code).length = min rows.length 77 ∧
    List.Sorted dateLE (load_from_db db code) ∧
    load_from_db db code <:+ List.insertionSort dateLE rows ∧
    process_data db code = some (process_data_core (load_from_db db code)) := by
  have hload : load_from_db db code =
      (List.insertionSort dateLE rows).drop
        ((List.insertionSort dateLE rows).length - 77) := by
    simp only [load_from_db, hdb]
  have hlen : (List.insertionSort dateLE rows).length = rows.length :=
    List.length_insertionSort dateLE rows
  have hmin : (load_from_db db code).length = min rows.length 77 := by
    rw [hload, List.length_drop, hlen]
    omega
  have hne2 : load_from_db db code ≠ [] := by
    intro h0
    have h1 := congrArg List.length h0
    rw [hmin, List.length_nil] at h1
    have h2 : rows.length ≠ 0 := fun hz => hne (List.length_eq_zero.mp hz)
    omega
  refine ⟨hmin, ?_, ?_, ?_⟩
  · rw [hload]
    exact (List.sorted_insertionSort dateLE rows).sublist (List.drop_sublist _ _)
  · rw [hload]
    exact List.drop_suffix _ _
  · simp only [process_data, if_neg hne2]

/-- One-row database used by the C5 witness. -/
def wdbB : String → Option (List RawRecord) :=
  fun _ => some [⟨5, 0, some 1, some 1, some 1⟩]

/-- Witness for C5 (amended) on a one-row table. -/
theorem window_truncation_amended_w :
    (load_from_db wdbB "9").length =
      min ([(⟨5, 0, some 1, some 1, some 1⟩ : RawRecord)].length) 77 ∧
    List.Sorted dateLE (load_from_db wdbB "9") ∧
    load_from_db wdbB "9" <:+
      List.insertionSort dateLE [(⟨5, 0, some 1, some 1, some 1⟩ : RawRecord)] ∧
    process_data wdbB "9" = some (process_data_core (load_from_db wdbB "9")) :=
  window_truncation_amended wdbB "9" [⟨5, 0, some 1, some 1, some 1⟩] rfl
    (by simp)

/-- Two-row table: the first row has NULL 5-day sums (undefined upstream
fields), the second is fully populated. -/
def c9rows : List RawRecord :=
  [⟨1, 0, some 10, none, none⟩, ⟨2, 0, some 10, some 10, some 10⟩]

/-- Claim C9, counterexample: the record with undefined upstream fields is
not dropped before the EMA stage, and the records with undefined derived
values are not dropped afterwards: the output frame still contains the first
record, with every derived column undefined. -/
theorem records_dropped_cx :
    process_data (fun _ => some c9rows) "005930" =
      some [⟨⟨1, 0, some 10, none, none⟩, none, none, none, none, none, none⟩,
        ⟨⟨2, 0, some 10, some 10, some 10⟩, some 200, some 200, some 200,
          some 0, some 0, some 0⟩] := by
  have hp : process_data (fun _ => some c9rows) "005930" =
      some (process_data_core c9rows) := rfl
  rw [hp]
  norm_num [process_data_core, c9rows, mkDerived, sigiCol, fastCol, slowCol,
    macdCol, signalCol, oscCol, calculate_ema, ewmSeed, ewmGo, sigiOf, osub,
    List.range_succ, defaultRaw]

/-- A frame whose oscillator column is `[1, 2, ..., 10]` (other fields are
irrelevant to `calculate_stats`). -/
def ex10 : List DerivedRecord :=
  [⟨defaultRaw, none, none, none, none, none, some 1⟩,
   ⟨defaultRaw, none, none, none, none, none, some 2⟩,
   ⟨defaultRaw, none, none, none, none, none, some 3⟩,
   ⟨defaultRaw, none, none, none, none, none, some 4⟩,
   ⟨defaultRaw, none, none, none, none, none, some 5⟩,
   ⟨defaultRaw, none, none, none, none, none, some 6⟩,
   ⟨defaultRaw, none, none, none, none, none, some 7⟩,
   ⟨defaultRaw, none, none, none, none, none, some 8⟩,
   ⟨defaultRaw, none, none, none, none, none, some 9⟩,
   ⟨defaultRaw, none, none, none, none, none, some 10⟩]

/-- Claim C4: `calculate_stats` returns exactly the five statistics of the
oscillator column — 0.90 quantile, 0.75 quantile, mean, 0.25 quantile, 0.10
quantile, with quantiles linearly interpolated at position `q*(n-1)` — and
on oscillator values `[1..10]` gives `9.1, 7.75, 5.5, 3.25, 1.9`. -/
theorem stats_five_values :
    (∀ data : List DerivedRecord,
      calculate_stats data =
        ⟨quantile (oscValues data) (9/10), quantile (oscValues data) (3/4),
          seriesMean (oscValues data), quantile (oscValues data) (1/4),
          quantile (oscValues data) (1/10)⟩) ∧
    calculate_stats ex10 =
      ⟨some (91/10), some (31/4), some (11/2), some (13/4), some (19/10)⟩ := by
  constructor
  · intro data
    rfl
  · have hvals : oscValues ex10 = [1, 2, 3, 4, 5, 6, 7, 8, 9, 10] := rfl
    have hsorted : List.insertionSort (· ≤ ·) ([1, 2, 3, 4, 5, 6, 7, 8, 9, 10] : List ℚ) =
        [1, 2, 3, 4, 5, 6, 7, 8, 9, 10] := by
      norm_num [List.insertionSort, List.orderedInsert]
    have hf9 : (⌊(81/10 : ℚ)⌋ : ℤ) = 8 := by
      rw [Int.floor_eq_iff]; norm_num
    have hf75 : (⌊(27/4 : ℚ)⌋ : ℤ) = 6 := by
      rw [Int.floor_eq_iff]; norm_num
    have hf25 : (⌊(9/4 : ℚ)⌋ : ℤ) = 2 := by
      rw [Int.floor_eq_iff]; norm_num
    have hf10 : (⌊(9/10 : ℚ)⌋ : ℤ) = 0 := by
      rw [Int.floor_eq_iff]; norm_num
    have ht8 : (8 : ℤ).toNat = 8 := rfl
    have ht6 : (6 : ℤ).toNat = 6 := rfl
    have ht2 : (2 : ℤ).toNat = 2 := rfl
    rw [calculate_stats, hvals]
    norm_num [quantile, seriesMean, hsorted, hf9, hf75, hf25, hf10,
      ht8, ht6, ht2, List.getElem_cons_succ, List.getElem_cons_zero,
      List.cons_ne_nil]

theorem getD_eq_getElem_of_lt (l : List ℚ) (j : ℕ) (h : j < l.length) :
    l.getD j 0 = l[j] := by
  rw [List.getD_eq_getElem?_getD, List.getElem?_eq_getElem h, Option.getD_some]

theorem sum_five_window (l : List ℚ) (k : ℕ) (h : k + 4 < l.length) :
    ((l.drop k).take 5).sum =
      l.getD k 0 + l.getD (k + 1) 0 + l.getD (k + 2) 0 +
        l.getD (k + 3) 0 + l.getD (k + 4) 0 := by
  have h0 : k < l.length := by omega
  have h1 : k + 1 < l.length := by omega
  have h2 : k + 2 < l.length := by omega
  have h3 : k + 3 < l.length := by omega
  rw [List.drop_eq_getElem_cons h0, List.drop_eq_getElem_cons h1,
    List.drop_eq_getElem_cons h2, List.drop_eq_getElem_cons h3,
    List.drop_eq_getElem_cons h]
  simp only [List.take_succ_cons, List.take_zero, List.sum_cons, List.sum_nil]
  rw [getD_eq_getElem_of_lt _ _ h0, getD_eq_getElem_of_lt _ _ h1,
    getD_eq_getElem_of_lt _ _ h2, getD_eq_getElem_of_lt _ _ h3,
    getD_eq_getElem_of_lt _ _ h]
  ring

/-- Claim C8 (spec-modelled `computeRollingSums`): with window 5 the first 4
positions carry an undefined sum — never a partial one — and every position
`i ≥ 4` carries exactly the sum of the five values at `i-4 .. i`. -/
theorem rolling_sums_window (vals : List ℚ) (i : ℕ) (h : i < vals.length) :
    (i < 4 → (computeRollingSums vals)[i]? = some none) ∧
    (4 ≤ i → (computeRollingSums vals)[i]? = some (some
      (vals.getD (i - 4) 0 + vals.getD (i - 3) 0 + vals.getD (i - 2) 0 +
        vals.getD (i - 1) 0 + vals.getD i 0))) := by
  have hbase : (computeRollingSums vals)[i]? =
      some (if 5 ≤ i + 1 then
        some (((vals.drop (i + 1 - 5)).take 5).sum) else none) := by
    rw [computeRollingSums, List.getElem?_map, List.getElem?_range h]
    rfl
  constructor
  · intro h4
    rw [hbase, if_neg (by omega)]
  · intro h4
    rw [hbase, if_pos (by omega)]
    have hk : i + 1 - 5 = i - 4 := by omega
    rw [hk, sum_five_window vals (i - 4) (by omega)]
    have e1 : i - 4 + 1 = i - 3 := by omega
    have e2 : i - 4 + 2 = i - 2 := by omega
    have e3 : i - 4 + 3 = i - 1 := by omega
    have e4 : i - 4 + 4 = i := by omega
    rw [e1, e2, e3, e4]

/-- Witness for C8: on `[1, 2, 3, 4, 5, 6]` position 5 carries
`2 + 3 + 4 + 5 + 6 = 20`. -/
theorem rolling_sums_window_w :
    (computeRollingSums [1, 2, 3, 4, 5, 6])[5]? = some (some 20) := by
  have h := (rolling_sums_window [1, 2, 3, 4, 5, 6] 5 (by simp)).2 (by norm_num)
  rw [h]
  norm_num [List.getD_cons_succ, List.getD_cons_zero]
